import Mathlib

/-!
Shallow embedding of the whiteboard scene-graph engine
(`src/unnamed/part_000`) and verification of its specification claims.

Conventions of the embedding:
* JavaScript numbers are modelled as exact rationals (`ℚ`); the float
  literal `0.05` denotes `1/20` and `1.35` denotes `27/20`.
* `Math.hypot(dx,dy) < c` (a comparison of a Euclidean distance against a
  bound) is encoded without square roots as `sqrtLt (dx^2+dy^2) c`, which is
  `0 ≤ c ∧ dx^2+dy^2 < c^2`; this is equivalent to `Real.sqrt (dx^2+dy^2) < c`
  for every rational input, since the squared distance is nonnegative.
  `sqrtLe` encodes `≤` the same way.
* Mutation of the engine's global state (`objects`, `stickies`, `cam`,
  `selectedId`, `history`, …) is modelled by explicit state passing on the
  record `EngState`.
* Canvas text metrics (`ctx.measureText`) are not computable from a string;
  a `text` object stores the list of measured line widths instead of the
  raw string content, which is exactly the data `getBounds` consumes.
-/

namespace Wb

/-- A 2-D point, as produced by `s2w` / stored in stroke point lists. -/
structure Pt where
  x : ℚ
  y : ℚ
deriving DecidableEq, Repr

/-- Camera state: `cam = { x, y, scale }` — pan offset and zoom scale. -/
structure Cam where
  x : ℚ
  y : ℚ
  scale : ℚ
deriving DecidableEq, Repr

/-- `s2w(sx, sy)`: screen → world, `(s - pan) / scale` componentwise. -/
def s2w (c : Cam) (sx sy : ℚ) : Pt :=
  ⟨(sx - c.x) / c.scale, (sy - c.y) / c.scale⟩

/-- `w2s(wx, wy)`: world → screen, `w * scale + pan` componentwise. -/
def w2s (c : Cam) (wx wy : ℚ) : Pt :=
  ⟨wx * c.scale + c.x, wy * c.scale + c.y⟩

/-- `applyZoom(factor, sx, sy)` restricted to its effect on the camera:
clamp the new scale to `[0.05, 20]`, then recompute the pan so the world
point under the cursor stays fixed. -/
def applyZoomCam (c : Cam) (factor sx sy : ℚ) : Cam :=
  let ns := max (1/20) (min 20 (c.scale * factor))
  let f := ns / c.scale
  { x := sx - (sx - c.x) * f, y := sy - (sy - c.y) * f, scale := ns }

/-- Scene objects (the tagged union documented at the top of the source).
`oid` is the `id` field. For `text`, `lineWidths` holds the measured width
of each line of the content (see the module docstring). -/
inductive Obj where
  | stroke (oid : Nat) (points : List Pt) (color : String) (width : ℚ) (opacity : ℚ)
  | line (oid : Nat) (x1 y1 x2 y2 : ℚ) (color : String) (width : ℚ)
  | rect (oid : Nat) (x y w h : ℚ) (color : String) (width : ℚ)
  | circle (oid : Nat) (cx cy rx ry : ℚ) (color : String) (width : ℚ)
  | text (oid : Nat) (x y : ℚ) (lineWidths : List ℚ) (fontSize : ℚ) (color : String)
deriving DecidableEq, Repr

/-- The `id` field of a scene object. -/
def Obj.objId : Obj → Nat
  | .stroke i _ _ _ _ => i
  | .line i _ _ _ _ _ _ => i
  | .rect i _ _ _ _ _ _ => i
  | .circle i _ _ _ _ _ _ => i
  | .text i _ _ _ _ _ => i

/-- Replace the `id` field (models `fin.id = objSeq++` after `makeShape`). -/
def Obj.withId : Obj → Nat → Obj
  | .stroke _ p c w o, i => .stroke i p c w o
  | .line _ a b c d e f, i => .line i a b c d e f
  | .rect _ a b c d e f, i => .rect i a b c d e f
  | .circle _ a b c d e f, i => .circle i a b c d e f
  | .text _ a b c d e, i => .text i a b c d e

/-- World-space bounding box `{x, y, w, h}`. -/
structure BBox where
  x : ℚ
  y : ℚ
  w : ℚ
  h : ℚ
deriving DecidableEq, Repr

/-- Minimum of the x components over a nonempty point list (`Math.min(...xs)`). -/
def minXs (p : Pt) (ps : List Pt) : ℚ := ps.foldl (fun a q => min a q.x) p.x

/-- Maximum of the x components over a nonempty point list. -/
def maxXs (p : Pt) (ps : List Pt) : ℚ := ps.foldl (fun a q => max a q.x) p.x

/-- Minimum of the y components over a nonempty point list. -/
def minYs (p : Pt) (ps : List Pt) : ℚ := ps.foldl (fun a q => min a q.y) p.y

/-- Maximum of the y components over a nonempty point list. -/
def maxYs (p : Pt) (ps : List Pt) : ℚ := ps.foldl (fun a q => max a q.y) p.y

/-- `Math.max(...lineWidths)` for the text bounding box. The source always
calls it with at least one line (splitting even an empty string yields one
empty line), so the empty case (source: negative infinity) is given an
arbitrary value. -/
def maxLineWidth : List ℚ → ℚ
  | [] => 0
  | w :: ws => ws.foldl max w

/-- `getBounds(obj)`: variant-specific world-space bounding box.
A stroke with an empty point list is unreachable in the source (a live
stroke is created with one point already); the source would produce
non-finite bounds there, the model returns the zero box of the `default`
branch. -/
def getBounds : Obj → BBox
  | .stroke _ pts _ w _ =>
    match pts with
    | [] => ⟨0, 0, 0, 0⟩
    | p :: ps =>
      ⟨minXs p ps - w/2, minYs p ps - w/2,
       maxXs p ps - minXs p ps + w, maxYs p ps - minYs p ps + w⟩
  | .line _ x1 y1 x2 y2 _ w =>
    ⟨min x1 x2 - w/2, min y1 y2 - w/2, |x2 - x1| + w, |y2 - y1| + w⟩
  | .rect _ x y w h _ _ =>
    ⟨min x (x + w), min y (y + h), |w|, |h|⟩
  | .circle _ cx cy rx ry _ _ =>
    ⟨cx - |rx|, cy - |ry|, |rx| * 2, |ry| * 2⟩
  | .text _ x y lws fs _ =>
    let mw := maxLineWidth lws
    ⟨x, y - fs, if mw = 0 then 80 else mw, (lws.length : ℚ) * fs * (27/20)⟩

/-- The eight resize-handle identifiers. -/
inductive HandleId where
  | nw | n | ne | e | se | s | sw | w
deriving DecidableEq, Repr

/-- `handleId.includes('n')` on the eight handle name strings. -/
def HandleId.hasN : HandleId → Bool
  | .nw => true | .n => true | .ne => true | _ => false

/-- `handleId.includes('s')` on the eight handle name strings. -/
def HandleId.hasS : HandleId → Bool
  | .sw => true | .s => true | .se => true | _ => false

/-- `handleId.includes('w')` on the eight handle name strings. -/
def HandleId.hasW : HandleId → Bool
  | .nw => true | .w => true | .sw => true | _ => false

/-- `handleId.includes('e')` on the eight handle name strings. -/
def HandleId.hasE : HandleId → Bool
  | .ne => true | .e => true | .se => true | _ => false

/-- `getHandles(obj)`: the 8 named anchor points (corners + edge midpoints)
of the bounding box, in world coordinates, in source order. -/
def getHandles (o : Obj) : List (HandleId × Pt) :=
  let b := getBounds o
  let cx := b.x + b.w/2
  let cy := b.y + b.h/2
  [ (.nw, ⟨b.x, b.y⟩),
    (.n,  ⟨cx, b.y⟩),
    (.ne, ⟨b.x + b.w, b.y⟩),
    (.e,  ⟨b.x + b.w, cy⟩),
    (.se, ⟨b.x + b.w, b.y + b.h⟩),
    (.s,  ⟨cx, b.y + b.h⟩),
    (.sw, ⟨b.x, b.y + b.h⟩),
    (.w,  ⟨b.x, cy⟩) ]

/-- World position of one named handle of an object. -/
def handlePos (o : Obj) (h : HandleId) : Option Pt :=
  ((getHandles o).find? (fun p => p.1 = h)).map (fun p => p.2)

/-- Encodes `Real.sqrt sq < c` without square roots, for `0 ≤ sq`
(see the module docstring). -/
def sqrtLt (sq c : ℚ) : Bool := decide (0 ≤ c) && decide (sq < c * c)

/-- Encodes `Real.sqrt sq ≤ c` without square roots, for `0 ≤ sq`. -/
def sqrtLe (sq c : ℚ) : Bool := decide (0 ≤ c) && decide (sq ≤ c * c)

/-- Square of `distPtSeg(px,py,ax,ay,bx,by)`: squared projection-clamped
point-to-segment distance; the degenerate-segment case is squared point
distance. The source returns the square root of this value. -/
def distPtSegSq (px py ax ay bx by' : ℚ) : ℚ :=
  let dx := bx - ax
  let dy := by' - ay
  let len2 := dx*dx + dy*dy
  if len2 = 0 then (px - ax)^2 + (py - ay)^2
  else
    let t := max 0 (min 1 (((px - ax)*dx + (py - ay)*dy) / len2))
    (px - (ax + t*dx))^2 + (py - (ay + t*dy))^2

/-- Stroke hit-test: some consecutive segment of the point list is within
distance `c` of the query point (`distPtSeg(...) < t + width/2` in the
source; `c` is the whole bound `t + width/2`). -/
def hitSegs (wx wy c : ℚ) : List Pt → Bool
  | p :: q :: rest =>
    sqrtLt (distPtSegSq wx wy p.x p.y q.x q.y) c || hitSegs wx wy c (q :: rest)
  | _ => false

/-- `hitObject(obj, wx, wy)`: shape-specific world-space hit test with
tolerance `t = HIT_THRESH / cam.scale = 8 / cam.scale`. -/
def hitObject (cam : Cam) (o : Obj) (wx wy : ℚ) : Bool :=
  let t := 8 / cam.scale
  match o with
  | .stroke _ pts _ w _ => hitSegs wx wy (t + w/2) pts
  | .line _ x1 y1 x2 y2 _ w =>
    sqrtLt (distPtSegSq wx wy x1 y1 x2 y2) (t + w/2)
  | .rect _ _ _ _ _ _ _ =>
    let b := getBounds o
    decide (b.x - t ≤ wx) && decide (wx ≤ b.x + b.w + t) &&
    decide (b.y - t ≤ wy) && decide (wy ≤ b.y + b.h + t)
  | .circle _ cx cy rx ry _ _ =>
    -- `Math.abs(obj.rx || 1)`: a zero radius is replaced by 1 before `abs`
    let rx1 := |if rx = 0 then 1 else rx|
    let ry1 := |if ry = 0 then 1 else ry|
    let dx := (wx - cx) / rx1
    let dy := (wy - cy) / ry1
    -- `Math.abs(d - 1) < eps` for `d = sqrt(dx^2+dy^2)`, i.e. `1-eps < d < 1+eps`
    let eps := t / max rx1 1
    sqrtLt (dx*dx + dy*dy) (1 + eps) && !(sqrtLe (dx*dx + dy*dy) (1 - eps))
  | .text _ _ _ _ _ _ =>
    let b := getBounds o
    decide (b.x - t ≤ wx) && decide (wx ≤ b.x + b.w + t) &&
    decide (b.y - t ≤ wy) && decide (wy ≤ b.y + b.h + t)

/-- `hitTest(wx, wy)`: topmost-first pick over the z-ordered object list,
returning the id of the first hit. -/
def hitTest (cam : Cam) (objs : List Obj) (wx wy : ℚ) : Option Nat :=
  (objs.reverse.find? (fun o => hitObject cam o wx wy)).map Obj.objId

/-- `applyResize(obj, handleId, dwx, dwy)` as a pure function.
The rect case writes each field from the saved `b0` copy; `n`/`s` (and
`w`/`e`) are mutually exclusive across the eight handle ids, and the later
`s` (resp. `e`) write is modelled as overriding the earlier one, exactly as
sequential assignment from `b0` behaves. -/
def applyResize (o : Obj) (h : HandleId) (dwx dwy : ℚ) : Obj :=
  match o with
  | .line oid x1 y1 x2 y2 c w =>
    if h = .nw ∨ h = .w ∨ h = .sw then .line oid (x1 + dwx) (y1 + dwy) x2 y2 c w
    else .line oid x1 y1 (x2 + dwx) (y2 + dwy) c w
  | .rect oid x y w h0 c sw =>
    let y2 := if h.hasN then y + dwy else y
    let h2 := if h.hasS then h0 + dwy else if h.hasN then h0 - dwy else h0
    let x2 := if h.hasW then x + dwx else x
    let w2 := if h.hasE then w + dwx else if h.hasW then w - dwx else w
    .rect oid x2 y2 w2 h2 c sw
  | .circle oid cx cy rx ry c w =>
    let rx2 := if h.hasE ∨ h.hasW then rx + (if h.hasE then dwx else -dwx) / 2 else rx
    let ry2 := if h.hasN ∨ h.hasS then ry + (if h.hasS then dwy else -dwy) / 2 else ry
    .circle oid cx cy rx2 ry2 c w
  | other => other

/-- `moveObject(obj, dwx, dwy)`: translate every coordinate field. -/
def moveObject (o : Obj) (dwx dwy : ℚ) : Obj :=
  match o with
  | .stroke oid pts c w op =>
    .stroke oid (pts.map (fun p => ⟨p.x + dwx, p.y + dwy⟩)) c w op
  | .line oid x1 y1 x2 y2 c w => .line oid (x1 + dwx) (y1 + dwy) (x2 + dwx) (y2 + dwy) c w
  | .rect oid x y w h c sw => .rect oid (x + dwx) (y + dwy) w h c sw
  | .circle oid cx cy rx ry c w => .circle oid (cx + dwx) (cy + dwy) rx ry c w
  | .text oid x y lws fs c => .text oid (x + dwx) (y + dwy) lws fs c

/-- `hitObjectRadius(obj, wx, wy, r)`: the eraser proximity test — distance
from the query point to the bounding-box center, compared against
`r + max(b.w, b.h) / 2`. -/
def hitObjectRadius (o : Obj) (wx wy r : ℚ) : Bool :=
  let b := getBounds o
  let cx := b.x + b.w/2
  let cy := b.y + b.h/2
  sqrtLt ((wx - cx)^2 + (wy - cy)^2) (r + max b.w b.h / 2)

/-- A note card: `{ id, x, y, w, h, text, colorIdx, zIdx }`. -/
structure Sticky where
  id : Nat
  x : ℚ
  y : ℚ
  w : ℚ
  h : ℚ
  text : String
  colorIdx : Nat
  zIdx : Nat
deriving DecidableEq, Repr

/-- One history snapshot: a deep copy of `{ objects, stickies, cam }`.
Deep cloning of immutable Lean values is the identity, so `deepClone` is
not modelled separately. -/
structure Snapshot where
  objects : List Obj
  stickies : List Sticky
  cam : Cam
deriving DecidableEq, Repr

/-- The engine's mutable globals relevant to the claims. `histIdx` is an
`Int` because the source initialises it to `-1`. The styling globals
(`tool`, `color`, `brushSize`) are passed as parameters to the operations
that read them. -/
structure EngState where
  objects : List Obj
  stickies : List Sticky
  cam : Cam
  objSeq : Nat
  stickySeq : Nat
  selectedId : Option Nat
  selIsSicky : Bool
  history : List Snapshot
  histIdx : Int
deriving DecidableEq, Repr

/-- `MAX_HIST = 60`: the history depth bound. -/
def MAX_HIST : Nat := 60

/-- `pushHistory()`: truncate the redo tail, append a snapshot of the live
state, evict the oldest entry past `MAX_HIST`, point at the new top. -/
def pushHistoryState (st : EngState) : EngState :=
  let h0 := st.history.take (st.histIdx + 1).toNat ++
    [⟨st.objects, st.stickies, st.cam⟩]
  let h := if MAX_HIST < h0.length then h0.drop 1 else h0
  { st with history := h, histIdx := (h.length : Int) - 1 }

/-- `applySnapshot(snap)`: replace the live scene wholesale and clear the
selection (the `selIsSicky` flag is left untouched, as in the source). -/
def applySnapState (st : EngState) (snap : Snapshot) : EngState :=
  { st with objects := snap.objects, stickies := snap.stickies,
            cam := snap.cam, selectedId := none }

/-- `undo()`: `if (histIdx > 0) applySnapshot(history[--histIdx])`.
The index is always in range in the source; the out-of-range branch keeps
the decremented index and is unreachable. -/
def undoState (st : EngState) : EngState :=
  if 0 < st.histIdx then
    let i := st.histIdx - 1
    match st.history.get? i.toNat with
    | some snap => applySnapState { st with histIdx := i } snap
    | none => { st with histIdx := i }
  else st

/-- `redo()`: `if (histIdx < history.length - 1) applySnapshot(history[++histIdx])`. -/
def redoState (st : EngState) : EngState :=
  if st.histIdx < (st.history.length : Int) - 1 then
    let i := st.histIdx + 1
    match st.history.get? i.toNat with
    | some snap => applySnapState { st with histIdx := i } snap
    | none => { st with histIdx := i }
  else st

/-- `getObjById(id)` over an explicit object list. -/
def getObjById (objs : List Obj) (i : Nat) : Option Obj :=
  objs.find? (fun o => o.objId = i)

/-- `eraseAt(wx, wy)`: remove every object within the proximity radius
`t = brushSize * 3 / cam.scale`; if anything was removed and the selected
object no longer exists, clear the selection. Note: the source pushes no
history snapshot here (it only re-renders and saves). -/
def eraseAtState (st : EngState) (brushSize wx wy : ℚ) : EngState :=
  let t := brushSize * 3 / st.cam.scale
  let objs := st.objects.filter (fun o => !(hitObjectRadius o wx wy t))
  let sel :=
    if objs.length ≠ st.objects.length then
      match st.selectedId with
      | some i => if (getObjById objs i).isSome then some i else none
      | none => none
    else st.selectedId
  { st with objects := objs, selectedId := sel }

/-- The drawing tools that reach the shape branch of `makeShape`. -/
inductive Tool where
  | select | pen | highlighter | eraser | line | rect | circle | text | pan
deriving DecidableEq, Repr

/-- `makeShape(t, x1, y1, x2, y2)` with the ambient `color` and `brushSize`;
the `id` is `null` at this point (placeholder `0`), assigned at commit via
`Obj.withId`. Returns `none` for non-shape tools (source: `undefined`). -/
def makeShape (t : Tool) (color : String) (brushSize : ℚ) (x1 y1 x2 y2 : ℚ) : Option Obj :=
  match t with
  | .line => some (.line 0 x1 y1 x2 y2 color brushSize)
  | .rect => some (.rect 0 x1 y1 (x2 - x1) (y2 - y1) color brushSize)
  | .circle =>
    some (.circle 0 ((x1 + x2)/2) ((y1 + y2)/2) (|x2 - x1|/2) (|y2 - y1|/2) color brushSize)
  | _ => none

/-- A stroke being drawn (`liveStroke` before commit; its `id` is `null`). -/
structure LiveStroke where
  points : List Pt
  color : String
  width : ℚ
  opacity : ℚ
deriving DecidableEq, Repr

/-- The `iState === 'drawing'` branch of `onUp`: commit the accumulated
stroke if it has at least 2 points; then, if a shape preview is active,
finalize the shape from the recorded origin to the release point, give it a
fresh id, select it, and push history. The `setTool('select')` side effect
only touches the (un-modelled) tool global. A `none` from `makeShape` is
unreachable here: `previewObj`/`drawOrigin` are only set by shape tools. -/
def onUpDrawing (st : EngState) (tool : Tool) (color : String) (brushSize : ℚ)
    (live : Option LiveStroke) (preview : Option Obj) (origin : Option Pt)
    (wp : Pt) : EngState :=
  let st1 :=
    match live with
    | some ls =>
      if 2 ≤ ls.points.length then
        pushHistoryState
          { st with
            objects := st.objects ++ [.stroke st.objSeq ls.points ls.color ls.width ls.opacity],
            objSeq := st.objSeq + 1 }
      else st
    | none => st
  match preview, origin with
  | some _, some o =>
    match makeShape tool color brushSize o.x o.y wp.x wp.y with
    | some fin0 =>
      let fin := fin0.withId st1.objSeq
      pushHistoryState
        { st1 with
          objects := st1.objects ++ [fin],
          objSeq := st1.objSeq + 1,
          selectedId := some st1.objSeq,
          selIsSicky := false }
    | none => st1
  | _, _ => st1

/-- `addSticky(wx, wy, colorIdx)`: the object literal evaluates
`id: stickySeq++` before `zIdx: stickySeq`, so `zIdx = id + 1`. -/
def addStickyState (st : EngState) (wx wy : ℚ) (colorIdx : Nat) : EngState :=
  let s : Sticky :=
    { id := st.stickySeq, x := wx, y := wy, w := 190, h := 150,
      text := "", colorIdx := colorIdx, zIdx := st.stickySeq + 1 }
  pushHistoryState { st with stickies := st.stickies ++ [s], stickySeq := st.stickySeq + 1 }

/-- `deleteSticky(id)`: filter the sticky out, then
`if (selectedId === id) selectedId = null` — the comparison does not
consult `selIsSicky` — then push history. -/
def deleteStickyState (st : EngState) (sid : Nat) : EngState :=
  pushHistoryState
    { st with
      stickies := st.stickies.filter (fun s => s.id ≠ sid),
      selectedId := if st.selectedId = some sid then none else st.selectedId }

/-- `deleteSelected()` for a canvas-object selection. -/
def deleteSelectedObjState (st : EngState) : EngState :=
  match st.selectedId with
  | none => st
  | some i =>
    pushHistoryState
      { st with objects := st.objects.filter (fun o => o.objId ≠ i), selectedId := none }

/-- The payload read back by `loadFromStorage` (fields may be missing). -/
structure Stored where
  objects : Option (List Obj)
  stickies : Option (List Sticky)
  cam : Option Cam
deriving DecidableEq, Repr

/-- `Math.max(...ids, 0) + 1`: recomputed sequence counter after a load. -/
def nextSeq (ids : List Nat) : Nat := (ids.foldl max 0) + 1

/-- `loadFromStorage()` applied to a parsed payload: each present field
overwrites the live state (`Object.assign(cam, d.cam)` replaces every
camera field, with no clamp on `scale`), the id counters are recomputed
from the loaded collections, and a history snapshot is pushed. The
styling fields (`color`, `brushSize`, `tool`) only touch un-modelled
globals. -/
def loadFromStorageState (st : EngState) (d : Stored) : EngState :=
  let objs := match d.objects with | some l => l | none => st.objects
  let stks := match d.stickies with | some l => l | none => st.stickies
  let cam := match d.cam with | some c => c | none => st.cam
  let sseq := if stks.length ≠ 0 then nextSeq (stks.map Sticky.id) else st.stickySeq
  let oseq := if objs.length ≠ 0 then nextSeq (objs.map Obj.objId) else st.objSeq
  pushHistoryState
    { st with objects := objs, stickies := stks, cam := cam,
              stickySeq := sseq, objSeq := oseq }

/-- State of the globals at script load: empty scene, identity camera,
both id sequences at 1, empty history with `histIdx = -1`. -/
def initEngState : EngState :=
  { objects := [], stickies := [], cam := ⟨0, 0, 1⟩, objSeq := 1, stickySeq := 1,
    selectedId := none, selIsSicky := false, history := [], histIdx := -1 }

/-- The state right after `openWB` initialises the board: the first
snapshot has been pushed (`if (history.length === 0) pushHistory()`). -/
def openedInit : EngState := pushHistoryState initEngState

/-- The engine operations that can run after initialisation, abstracted to
their effect on `EngState`. `mutateScene` over-approximates every
scene-editing handler that does not touch the camera (draw, move, resize,
delete, text commit, sticky edits): it rewrites the object and sticky
collections and the selection arbitrarily. `commitOp` is a bare
`pushHistory()`; an editing handler that commits is a `mutateScene`
followed by a `commitOp`. -/
inductive WbOp where
  | zoom (factor sx sy : ℚ)
  | panBy (dx dy : ℚ)
  | resetView
  | clearBoard
  | undoOp
  | redoOp
  | mutateScene (f : List Obj → List Obj) (g : List Sticky → List Sticky)
      (sel : Option Nat) (sticky : Bool)
  | commitOp
  | eraseOp (brushSize wx wy : ℚ)
  | addStickyOp (wx wy : ℚ) (colorIdx : Nat)
  | deleteStickyOp (sid : Nat)
  | deleteSelectedOp
  | drawUpOp (tool : Tool) (color : String) (brushSize : ℚ)
      (live : Option LiveStroke) (preview : Option Obj) (origin : Option Pt) (wp : Pt)

/-- One step of the interaction layer. `zoom` covers both wheel zoom and
pinch zoom (both call `applyZoom`); `panBy` is the pan gesture; `resetView`
is the Ctrl+0 camera reset; `clearBoard` is the confirmed board clear. -/
def stepOp (st : EngState) : WbOp → EngState
  | .zoom factor sx sy => { st with cam := applyZoomCam st.cam factor sx sy }
  | .panBy dx dy => { st with cam := { st.cam with x := st.cam.x + dx, y := st.cam.y + dy } }
  | .resetView => { st with cam := ⟨0, 0, 1⟩ }
  | .clearBoard =>
    pushHistoryState
      { st with objects := [], stickies := [], selectedId := none, cam := ⟨0, 0, 1⟩ }
  | .undoOp => undoState st
  | .redoOp => redoState st
  | .mutateScene f g sel sticky =>
    { st with objects := f st.objects, stickies := g st.stickies,
              selectedId := sel, selIsSicky := sticky }
  | .commitOp => pushHistoryState st
  | .eraseOp bs wx wy => eraseAtState st bs wx wy
  | .addStickyOp wx wy ci => addStickyState st wx wy ci
  | .deleteStickyOp sid => deleteStickyState st sid
  | .deleteSelectedOp => deleteSelectedObjState st
  | .drawUpOp tool color bs live preview origin wp =>
    onUpDrawing st tool color bs live preview origin wp

/-- The camera-scale invariant of the specification: `scale ∈ [0.05, 20]`. -/
def scaleInBounds (s : ℚ) : Prop := 1/20 ≤ s ∧ s ≤ 20

/-- The invariant carried through the reachability proof: the live camera
scale is in bounds and so is the camera scale of every stored snapshot. -/
def ScaleInv (st : EngState) : Prop :=
  scaleInBounds st.cam.scale ∧ ∀ sn ∈ st.history, scaleInBounds sn.cam.scale

/-- Fixture: the single object of the C1 failing input. -/
def c1Rect : Obj := .rect 1 0 0 10 10 "black" 2

/-- Fixture: a board holding `c1Rect`, with its initial snapshot pushed
(as `openWB` and `loadFromStorage` do). -/
def c1Board : EngState := pushHistoryState { initEngState with objects := [c1Rect], objSeq := 2 }

/-- Fixture: `c1Board` after one eraser application at the center of the
rectangle, with brush size 4 at camera scale 1 (erase radius 12). -/
def c1Erased : EngState := eraseAtState c1Board 4 5 5

/-- Fixture: the line of the pick-precision claim — width 4, running from
the origin to the point 10 units to the east. -/
def c2Line : Obj := .line 1 0 0 10 0 "black" 4

/-- Fixture: a wide, flat rectangle for the eraser-radius counterexample. -/
def c4Rect : Obj := .rect 1 0 0 100 50 "black" 2

/-- Fixture: a line drawn right-to-left — its first endpoint is the eastern
one — for the resize-nearest-endpoint counterexample. -/
def c6Line : Obj := .line 1 10 0 0 0 "black" 4

/-- Fixture: a board built by real operations in which a canvas object and
a sticky both carry id 1 (the two id counters are independent and both
start at 1), and the canvas object is then selected, exactly as the
select-tool pointer-down handler does. -/
def c10State : EngState :=
  { (addStickyState
      (onUpDrawing openedInit .pen "black" 4
        (some ⟨[⟨0, 0⟩, ⟨1, 1⟩], "black", 4, 1⟩) none none ⟨1, 1⟩)
      50 60 0) with
    selectedId := some 1, selIsSicky := false }

/-- C8: for every camera with nonzero scale and every world point, the
screen-to-world transform inverts the world-to-screen transform:
`s2w (w2s p) = p`, exactly, over exact arithmetic. -/
theorem C8_screen_world_inverse (c : Cam) (hs : c.scale ≠ 0) (wx wy : ℚ) :
    s2w c (w2s c wx wy).x (w2s c wx wy).y = ⟨wx, wy⟩ := by
  simp only [s2w, w2s, Pt.mk.injEq]
  constructor <;> field_simp

/-- Witness for C8 at the camera `(pan 3, 7; scale 2)` and point `(5, 11)`. -/
theorem C8_screen_world_inverse_witness :
    s2w ⟨3, 7, 2⟩ (w2s ⟨3, 7, 2⟩ 5 11).x (w2s ⟨3, 7, 2⟩ 5 11).y = ⟨5, 11⟩ :=
  C8_screen_world_inverse ⟨3, 7, 2⟩ two_ne_zero 5 11

/-- C7: after `applyZoom(factor, sx, sy)`, the world point that mapped to
the screen point `(sx, sy)` before the call still maps to `(sx, sy)`
after it, for every camera with nonzero scale, zoom factor, and cursor
position — the clamped rescale plus pan recomputation cancel exactly. -/
theorem C7_zoom_fixes_cursor_point (c : Cam) (hs : c.scale ≠ 0) (factor sx sy : ℚ) :
    w2s (applyZoomCam c factor sx sy)
      (s2w c sx sy).x (s2w c sx sy).y = ⟨sx, sy⟩ := by
  simp only [w2s, s2w, applyZoomCam, Pt.mk.injEq]
  constructor <;> field_simp

/-- Witness for C7: camera `(pan 3, 7; scale 2)`, zoom factor 3 at the
cursor `(40, 50)`. -/
theorem C7_zoom_fixes_cursor_point_witness :
    w2s (applyZoomCam ⟨3, 7, 2⟩ 3 40 50)
      (s2w ⟨3, 7, 2⟩ 40 50).x (s2w ⟨3, 7, 2⟩ 40 50).y = ⟨40, 50⟩ :=
  C7_zoom_fixes_cursor_point ⟨3, 7, 2⟩ two_ne_zero 3 40 50

/-- C5: resizing a rectangle by the north-west handle updates `x`, `y`,
`w`, `h` so that the south-east corner `(x+w, y+h)` is unchanged, for every
rectangle and drag delta; and dragging the east handle of the rectangle
`(x 0, y 0, w 100, h 50)` by `dx = 20` yields `(x 0, y 0, w 120, h 50)`. -/
theorem C5_rect_resize_anchoring :
    (∀ (oid : Nat) (x y w h : ℚ) (c : String) (sw dx dy : ℚ),
      applyResize (.rect oid x y w h c sw) .nw dx dy
        = .rect oid (x + dx) (y + dy) (w - dx) (h - dy) c sw) ∧
    (∀ (x y w h dx dy : ℚ),
      (x + dx) + (w - dx) = x + w ∧ (y + dy) + (h - dy) = y + h) ∧
    applyResize (.rect 1 0 0 100 50 "black" 2) .e 20 0
      = .rect 1 0 0 120 50 "black" 2 := by
  refine ⟨fun oid x y w h c sw dx dy => ?_, fun x y w h dx dy => ⟨by ring, by ring⟩, ?_⟩
  · simp [applyResize, HandleId.hasN, HandleId.hasS, HandleId.hasW, HandleId.hasE]
  · norm_num [applyResize, HandleId.hasN, HandleId.hasS, HandleId.hasW, HandleId.hasE]

/-- C6 counterexample: for the right-to-left line from `(10,0)` to `(0,0)`
of width 4, the west handle sits at `(-2, 0)`; the endpoint nearest to that
handle is the second one, `(0,0)` (squared distance 4 versus 144), yet
resizing by the west handle moves the first endpoint `(10,0)` and leaves
the nearest endpoint unchanged — refuting that the resize moves the
endpoint nearest to the dragged handle. -/
theorem C6_nearest_endpoint_cex :
    handlePos c6Line .w = some ⟨-2, 0⟩ ∧
    ((-2 : ℚ) - 0)^2 + ((0:ℚ) - 0)^2 < ((-2 : ℚ) - 10)^2 + ((0:ℚ) - 0)^2 ∧
    applyResize c6Line .w 1 1 = .line 1 11 1 0 0 "black" 4 := by
  refine ⟨?_, by norm_num, ?_⟩
  · norm_num [handlePos, getHandles, getBounds, c6Line]
    decide
  · norm_num [applyResize, c6Line]

/-- C6 amended: resizing a line moves exactly one endpoint and leaves the
other unchanged — the first endpoint `(x1,y1)` for the west-side handles
(`nw`, `w`, `sw`) and the second endpoint `(x2,y2)` for every other
handle, irrespective of which endpoint lies nearer to the handle.
(When the line runs left-to-right, `x1 ≤ x2`, the first endpoint is indeed
at least as near to the `w` handle as the second, as the final conjunct
shows; the counterexample shows the general "nearest" reading fails.) -/
theorem C6_line_resize_moves_fixed_endpoint :
    (∀ (oid : Nat) (x1 y1 x2 y2 : ℚ) (c : String) (w dx dy : ℚ) (h : HandleId),
      applyResize (.line oid x1 y1 x2 y2 c w) h dx dy =
        if h = .nw ∨ h = .w ∨ h = .sw
        then .line oid (x1 + dx) (y1 + dy) x2 y2 c w
        else .line oid x1 y1 (x2 + dx) (y2 + dy) c w) ∧
    (∀ (oid : Nat) (x1 y1 x2 y2 : ℚ) (c : String) (w : ℚ),
      handlePos (.line oid x1 y1 x2 y2 c w) .w
        = some ⟨min x1 x2 - w/2, (y1 + y2)/2⟩) ∧
    (∀ (x1 y1 x2 y2 w : ℚ), x1 ≤ x2 → 0 ≤ w →
      ((min x1 x2 - w/2) - x1)^2 + ((y1 + y2)/2 - y1)^2
        ≤ ((min x1 x2 - w/2) - x2)^2 + ((y1 + y2)/2 - y2)^2) := by
  refine ⟨fun oid x1 y1 x2 y2 c w dx dy h => rfl, ?_, ?_⟩
  · intro oid x1 y1 x2 y2 c w
    have hbase : handlePos (.line oid x1 y1 x2 y2 c w) .w
        = some ⟨min x1 x2 - w/2, (min y1 y2 - w/2) + ((|y2 - y1| + w)/2)⟩ := rfl
    rw [hbase]
    have hy : (min y1 y2 - w/2) + ((|y2 - y1| + w)/2) = (y1 + y2)/2 := by
      rcases le_total y1 y2 with hle | hle
      · rw [min_eq_left hle, abs_of_nonneg (by linarith)]; ring
      · rw [min_eq_right hle, abs_of_nonpos (by linarith)]; ring
    rw [hy]
  · intro x1 y1 x2 y2 w hx hw
    rw [min_eq_left hx]
    nlinarith [sq_nonneg (x2 - x1), mul_nonneg (sub_nonneg.2 hx) hw]

/-- Witness for C6: the nearest-endpoint conjunct at the line from `(0,1)`
to `(3,5)` of width 4, with both hypotheses discharged concretely. -/
theorem C6_line_resize_moves_fixed_endpoint_witness :
    (0:ℚ) ≤ 3 ∧ (0:ℚ) ≤ 4 ∧
    ((min 0 3 - 4/2) - 0)^2 + (((1:ℚ) + 5)/2 - 1)^2
      ≤ ((min 0 3 - 4/2) - 3)^2 + (((1:ℚ) + 5)/2 - 5)^2 :=
  ⟨le_of_lt three_pos, le_of_lt four_pos,
    C6_line_resize_moves_fixed_endpoint.2.2 0 1 3 5 4
      (le_of_lt three_pos) (le_of_lt four_pos)⟩

/-- C2 counterexample: the line of width 4 from `(0,0)` to `(10,0)`, tested
at the point `(5,5)` — 5 world units off its path — IS hit at camera scale
1 (tolerance `8/1 + 4/2 = 10 > 5`), refuting the claim that it is not hit
at scale 1. -/
theorem C2_pick_scale_cex : hitObject ⟨0, 0, 1⟩ c2Line 5 5 = true := by
  norm_num [hitObject, c2Line, distPtSegSq, sqrtLt]

/-- C2 amended: the pick tolerance for a line is the fixed 8-pixel screen
threshold divided by the camera scale, plus half the stroke width: for the
width-4 line tested 5 world units off its path, the test succeeds exactly
when `5 < 8/scale + 2`; hence the point IS hit at scale 1 and is NOT hit
at scale 4 (the 5-unit offset then lies outside the shrunken band). -/
theorem C2_pick_tolerance_scales :
    (∀ s : ℚ, 0 < s →
      (hitObject ⟨0, 0, s⟩ c2Line 5 5 = true ↔ 5 < 8 / s + 2)) ∧
    hitObject ⟨0, 0, 1⟩ c2Line 5 5 = true ∧
    hitObject ⟨0, 0, 4⟩ c2Line 5 5 = false := by
  refine ⟨?_, by norm_num [hitObject, c2Line, distPtSegSq, sqrtLt],
    by norm_num [hitObject, c2Line, distPtSegSq, sqrtLt]⟩
  intro s hs
  have hd : distPtSegSq 5 5 0 0 10 0 = 25 := by norm_num [distPtSegSq]
  have hc : (0:ℚ) < 8 / s + 2 := by positivity
  show sqrtLt (distPtSegSq 5 5 0 0 10 0) (8 / s + 4/2) = true ↔ (5:ℚ) < 8 / s + 2
  have h42 : (8:ℚ) / s + 4/2 = 8 / s + 2 := by norm_num
  rw [hd, h42, sqrtLt]
  simp only [Bool.and_eq_true, decide_eq_true_eq]
  constructor
  · rintro ⟨-, h25⟩
    nlinarith
  · intro h5
    refine ⟨hc.le, by nlinarith⟩

/-- Witness for C2: the tolerance characterization applied at the concrete
scale 2, with the positivity hypothesis discharged there. -/
theorem C2_pick_tolerance_scales_witness :
    (0:ℚ) < 2 ∧ (hitObject ⟨0, 0, 2⟩ c2Line 5 5 = true ↔ (5:ℚ) < 8 / 2 + 2) :=
  ⟨two_pos, C2_pick_tolerance_scales.1 2 two_pos⟩

/-- C3 counterexample: with the rectangle tool, pressing and releasing the
pointer at the same world point `(3,4)` (a zero-extent gesture) commits a
degenerate rectangle with `w = 0`, `h = 0` to the scene — the zero-length
shape is NOT discarded. -/
theorem C3_zero_extent_shape_cex :
    (onUpDrawing openedInit .rect "black" 4 none
        (makeShape .rect "black" 4 3 4 3 4) (some ⟨3, 4⟩) ⟨3, 4⟩).objects
      = [.rect 1 3 4 0 0 "black" 4] ∧
    ([Obj.rect 1 3 4 0 0 "black" 4] ≠ ([] : List Obj)) := by
  constructor
  · norm_num [onUpDrawing, makeShape, Obj.withId, pushHistoryState,
      openedInit, initEngState]
  · simp

/-- C3 amended: on pointer-up ending a drawing gesture, an accumulated
freehand stroke is committed exactly when it has at least 2 points
(zero-length strokes are discarded); but a shape gesture always commits a
shape object — for the rectangle tool the committed rectangle spans from
the anchor to the release point, including the degenerate zero-extent case
where the pointer is released at the anchor. -/
theorem C3_commit_on_pointer_up :
    (∀ (st : EngState) (t : Tool) (c : String) (bs : ℚ) (ls : LiveStroke) (wp : Pt),
      (onUpDrawing st t c bs (some ls) none none wp).objects
        = if 2 ≤ ls.points.length
          then st.objects ++ [.stroke st.objSeq ls.points ls.color ls.width ls.opacity]
          else st.objects) ∧
    (∀ (st : EngState) (c : String) (bs : ℚ) (pv : Obj) (o wp : Pt),
      (onUpDrawing st .rect c bs none (some pv) (some o) wp).objects
        = st.objects ++ [.rect st.objSeq o.x o.y (wp.x - o.x) (wp.y - o.y) c bs]) := by
  constructor
  · intro st t c bs ls wp
    by_cases h2 : 2 ≤ ls.points.length
    · simp [onUpDrawing, h2, pushHistoryState]
    · simp [onUpDrawing, h2, pushHistoryState]
  · intro st c bs pv o wp
    simp [onUpDrawing, makeShape, Obj.withId, pushHistoryState]

/-- C4 counterexample: erasing at `(0,0)` with brush size 4 at camera
scale 1 (erase radius `4*3/1 = 12`) removes the rectangle at
`(x 0, y 0, w 100, h 50)` even though its bounding-box center `(50, 25)`
is at squared distance `3125 > 12^2 = 144` from the erase point — i.e. the
center does NOT lie within the erase radius, refuting that exactly the
objects with center within the radius are removed. -/
theorem C4_erase_radius_cex :
    (getBounds c4Rect).x + (getBounds c4Rect).w / 2 = 50 ∧
    (getBounds c4Rect).y + (getBounds c4Rect).h / 2 = 25 ∧
    ¬ (((0:ℚ) - 50)^2 + ((0:ℚ) - 25)^2 < (4 * 3 / (1:ℚ))^2) ∧
    (eraseAtState { openedInit with objects := [c4Rect] } 4 0 0).objects = [] := by
  refine ⟨by norm_num [getBounds, c4Rect], by norm_num [getBounds, c4Rect],
    by norm_num, ?_⟩
  norm_num [eraseAtState, openedInit, initEngState, pushHistoryState,
    hitObjectRadius, getBounds, sqrtLt, c4Rect]

/-- C4 amended: `eraseAt(wx, wy)` removes exactly those objects whose
bounding-box center lies within `radius + max(bboxWidth, bboxHeight)/2` of
the point, where the radius is `brushSize * 3 / cam.scale`; every other
object is left unchanged (the survivors are a sublist of the original
scene, in order, field-for-field). -/
theorem C4_erase_characterization (st : EngState) (bs wx wy : ℚ) :
    ((eraseAtState st bs wx wy).objects.Sublist st.objects) ∧
    (∀ o : Obj, o ∈ (eraseAtState st bs wx wy).objects ↔
      o ∈ st.objects ∧
      ¬ (0 ≤ bs * 3 / st.cam.scale + max (getBounds o).w (getBounds o).h / 2 ∧
         (wx - ((getBounds o).x + (getBounds o).w / 2))^2
           + (wy - ((getBounds o).y + (getBounds o).h / 2))^2
           < (bs * 3 / st.cam.scale + max (getBounds o).w (getBounds o).h / 2)
             * (bs * 3 / st.cam.scale + max (getBounds o).w (getBounds o).h / 2))) := by
  constructor
  · exact List.filter_sublist _
  · intro o
    simp only [eraseAtState, List.mem_filter, hitObjectRadius, sqrtLt,
      Bool.not_eq_true', Bool.and_eq_false_iff, decide_eq_false_iff_not,
      not_and_or, not_lt, not_le]

/-- C1: a single eraser removal is not a reversible edit. The board holds
one rectangle and its initial history snapshot; one eraser application at
the center of the rectangle (brush size 4, camera scale 1) empties the
scene but pushes no history snapshot, so a subsequent `undo()` is a
boundary no-op that leaves the scene empty instead of restoring the
rectangle — and `redo()` cannot restore the post-erase state either. -/
theorem C1_eraser_removal_not_undoable :
    c1Board.objects = [c1Rect] ∧
    c1Erased.objects = [] ∧
    c1Erased.history = c1Board.history ∧
    c1Erased.histIdx = c1Board.histIdx ∧
    (undoState c1Erased).objects = [] ∧
    (redoState c1Erased).objects = [] := by
  have hobjs : c1Erased.objects = [] := by
    norm_num [c1Erased, c1Board, eraseAtState, hitObjectRadius, getBounds,
      sqrtLt, c1Rect, initEngState, pushHistoryState]
  have hidx : c1Erased.histIdx = 0 := rfl
  have hlen : c1Erased.history.length = 1 := rfl
  refine ⟨rfl, hobjs, rfl, rfl, ?_, ?_⟩
  · simp [undoState, hidx, hobjs]
  · simp [redoState, hidx, hlen, hobjs]

/-- C10: whenever the selected id equals the id passed to `deleteSticky`,
the selection is cleared — the comparison never consults the `selIsSicky`
kind flag — while the canvas objects are left untouched and exactly the
stickies with that id are removed. Since object ids and sticky ids come
from two independent counters both starting at 1, a canvas object and a
sticky can carry the same integer id, and deleting such a sticky clears a
selection that referred to the (untouched) canvas object. -/
theorem C10_deleteSticky_ignores_selection_kind (st : EngState) (n : Nat)
    (hsel : st.selectedId = some n) :
    (deleteStickyState st n).selectedId = none ∧
    (deleteStickyState st n).objects = st.objects ∧
    (deleteStickyState st n).stickies = st.stickies.filter (fun s => s.id ≠ n) ∧
    (deleteStickyState st n).selIsSicky = st.selIsSicky := by
  refine ⟨?_, rfl, rfl, rfl⟩
  simp [deleteStickyState, pushHistoryState, hsel]

/-- Witness for C10: in `c10State` — built by committing a pen stroke
(object id 1 from `objSeq`) and adding a sticky (sticky id 1 from the
independent `stickySeq`), then selecting the canvas object — deleting
sticky 1 removes the sticky, keeps the object, and still clears the
selection that referred to the canvas object. -/
theorem C10_deleteSticky_ignores_selection_kind_witness :
    c10State.selectedId = some 1 ∧
    c10State.selIsSicky = false ∧
    c10State.objects.map Obj.objId = [1] ∧
    c10State.stickies.map Sticky.id = [1] ∧
    ((deleteStickyState c10State 1).selectedId = none ∧
     (deleteStickyState c10State 1).objects = c10State.objects ∧
     (deleteStickyState c10State 1).stickies
        = c10State.stickies.filter (fun s => s.id ≠ 1) ∧
     (deleteStickyState c10State 1).selIsSicky = c10State.selIsSicky) :=
  ⟨rfl, rfl, rfl, rfl, C10_deleteSticky_ignores_selection_kind c10State 1 rfl⟩

/-- The identity scale is within the camera bounds. -/
theorem scaleInBounds_one : scaleInBounds 1 := by norm_num [scaleInBounds]

/-- The clamp of `applyZoom` always lands in the camera bounds. -/
theorem scaleInBounds_clamp (s factor : ℚ) :
    scaleInBounds (max (1/20) (min 20 (s * factor))) :=
  ⟨le_max_left _ _, max_le (by norm_num) (min_le_left _ _)⟩

/-- `ScaleInv` only looks at the camera and the history, so any state
update that keeps both preserves it. -/
theorem ScaleInv_of_same (st st2 : EngState) (hcam : st2.cam = st.cam)
    (hhist : st2.history = st.history) (h : ScaleInv st) : ScaleInv st2 := by
  unfold ScaleInv at h ⊢
  rw [hcam, hhist]
  exact h

/-- Every snapshot in the history after a `pushHistory()` is either an old
snapshot or the snapshot of the live state being pushed. -/
theorem mem_pushHistory (st : EngState) (sn : Snapshot)
    (hsn : sn ∈ (pushHistoryState st).history) :
    sn ∈ st.history ∨ sn = ⟨st.objects, st.stickies, st.cam⟩ := by
  simp only [pushHistoryState] at hsn
  have hsn2 : sn ∈ st.history.take (st.histIdx + 1).toNat ++
      [(⟨st.objects, st.stickies, st.cam⟩ : Snapshot)] := by
    split at hsn
    · exact List.drop_subset _ _ hsn
    · exact hsn
  rcases List.mem_append.1 hsn2 with h1 | h2
  · exact Or.inl (List.take_subset _ _ h1)
  · exact Or.inr (List.mem_singleton.1 h2)

/-- `pushHistory()` preserves the camera-scale invariant: the camera is
untouched and the only new snapshot records the (in-bounds) live camera. -/
theorem pushHistory_ScaleInv (st : EngState) (h : ScaleInv st) :
    ScaleInv (pushHistoryState st) := by
  obtain ⟨hc, hh⟩ := h
  refine ⟨hc, ?_⟩
  intro sn hsn
  rcases mem_pushHistory st sn hsn with h1 | h2
  · exact hh sn h1
  · rw [h2]; exact hc

/-- The pointer-up commit of a drawing gesture preserves the camera-scale
invariant: it only appends objects and pushes history snapshots. -/
theorem onUpDrawing_ScaleInv (st : EngState) (t : Tool) (col : String) (b : ℚ)
    (live : Option LiveStroke) (preview : Option Obj) (origin : Option Pt) (wp : Pt)
    (h : ScaleInv st) : ScaleInv (onUpDrawing st t col b live preview origin wp) := by
  have key : ∀ s1 : EngState, ScaleInv s1 →
      ScaleInv (match preview, origin with
        | some _, some o =>
          match makeShape t col b o.x o.y wp.x wp.y with
          | some fin0 =>
            pushHistoryState
              { s1 with
                objects := s1.objects ++ [fin0.withId s1.objSeq],
                objSeq := s1.objSeq + 1,
                selectedId := some s1.objSeq,
                selIsSicky := false }
          | none => s1
        | _, _ => s1) := by
    intro s1 hs1
    rcases preview with _ | pv
    · exact hs1
    · rcases origin with _ | o
      · exact hs1
      · dsimp only
        rcases hm : makeShape t col b o.x o.y wp.x wp.y with _ | fin0
        · simp only [hm]
          exact hs1
        · simp only [hm]
          exact pushHistory_ScaleInv _ (ScaleInv_of_same _ _ rfl rfl hs1)
  unfold onUpDrawing
  cases live with
  | none => exact key st h
  | some ls =>
    dsimp only
    by_cases h2 : 2 ≤ ls.points.length
    · simp only [if_pos h2]
      exact key _ (pushHistory_ScaleInv _ (ScaleInv_of_same _ _ rfl rfl h))
    · simp only [if_neg h2]
      exact key _ h

/-- Every modelled interaction step preserves the camera-scale invariant. -/
theorem stepOp_ScaleInv (st : EngState) (op : WbOp) (h : ScaleInv st) :
    ScaleInv (stepOp st op) := by
  obtain ⟨hc, hh⟩ := h
  cases op with
  | zoom f sx sy => exact ⟨scaleInBounds_clamp _ _, hh⟩
  | panBy dx dy => exact ⟨hc, hh⟩
  | resetView => exact ⟨scaleInBounds_one, hh⟩
  | clearBoard => exact pushHistory_ScaleInv _ ⟨scaleInBounds_one, hh⟩
  | undoOp =>
    show ScaleInv (undoState st)
    unfold undoState
    split
    · rcases hq : st.history.get? (st.histIdx - 1).toNat with _ | snap
      · simp only [hq]
        exact ⟨hc, hh⟩
      · simp only [hq]
        exact ⟨hh snap (List.get?_mem hq), hh⟩
    · exact ⟨hc, hh⟩
  | redoOp =>
    show ScaleInv (redoState st)
    unfold redoState
    split
    · rcases hq : st.history.get? (st.histIdx + 1).toNat with _ | snap
      · simp only [hq]
        exact ⟨hc, hh⟩
      · simp only [hq]
        exact ⟨hh snap (List.get?_mem hq), hh⟩
    · exact ⟨hc, hh⟩
  | mutateScene f g sel sticky => exact ⟨hc, hh⟩
  | commitOp => exact pushHistory_ScaleInv _ ⟨hc, hh⟩
  | eraseOp bs wx wy => exact ⟨hc, hh⟩
  | addStickyOp wx wy ci => exact pushHistory_ScaleInv _ (ScaleInv_of_same _ _ rfl rfl ⟨hc, hh⟩)
  | deleteStickyOp sid => exact pushHistory_ScaleInv _ (ScaleInv_of_same _ _ rfl rfl ⟨hc, hh⟩)
  | deleteSelectedOp =>
    show ScaleInv (deleteSelectedObjState st)
    unfold deleteSelectedObjState
    cases hsel : st.selectedId with
    | none => exact ⟨hc, hh⟩
    | some i => exact pushHistory_ScaleInv _ (ScaleInv_of_same _ _ rfl rfl ⟨hc, hh⟩)
  | drawUpOp t col b live preview origin wp =>
    exact onUpDrawing_ScaleInv st t col b live preview origin wp ⟨hc, hh⟩

/-- The freshly opened board satisfies the camera-scale invariant. -/
theorem ScaleInv_openedInit : ScaleInv openedInit := by
  constructor
  · exact scaleInBounds_one
  · intro sn hsn
    simp only [openedInit, initEngState, pushHistoryState, MAX_HIST] at hsn
    norm_num at hsn
    rw [hsn]
    exact scaleInBounds_one

/-- C9 amended: in every state reachable from the freshly opened board by
the in-engine operations — wheel/pinch zoom, pan, view reset, board clear,
undo, redo, eraser passes, sticky operations, drawing commits, and
arbitrary committing scene edits — the camera scale lies in `[0.05, 20]`,
and so does the camera scale of every stored history snapshot (so history
restores preserve the bounds as well). Loading a stored scene is NOT in
this list: it copies the stored camera without clamping. -/
theorem C9_scale_bounds_reachable (ops : List WbOp) :
    ScaleInv (List.foldl stepOp openedInit ops) := by
  suffices hgen : ∀ st, ScaleInv st → ScaleInv (List.foldl stepOp st ops) from
    hgen openedInit ScaleInv_openedInit
  induction ops with
  | nil => exact fun st h => h
  | cons op ops ih => exact fun st h => ih _ (stepOp_ScaleInv st op h)

/-- C9 counterexample: `loadFromStorage` applies a stored camera with
`scale = 100` verbatim — no clamping — leaving the live camera scale
outside the `[0.05, 20]` bounds. -/
theorem C9_load_unclamped_cex :
    (loadFromStorageState openedInit ⟨none, none, some ⟨0, 0, 100⟩⟩).cam.scale = 100 ∧
    ¬ scaleInBounds
        (loadFromStorageState openedInit ⟨none, none, some ⟨0, 0, 100⟩⟩).cam.scale := by
  have hval : (loadFromStorageState openedInit
      ⟨none, none, some ⟨0, 0, 100⟩⟩).cam.scale = (100:ℚ) := rfl
  refine ⟨hval, ?_⟩
  rw [hval]
  norm_num [scaleInBounds]

end Wb

